import Mathlib

set_option maxHeartbeats 1000000

/-
Verification development for the GeographicLib geodesic/geocentric sources.

Embedded source files:
  * src/Geocentric.cpp ................ ellipsoid constructor, IntForward, IntReverse
  * Geod.cpp (src/unnamed/part_000) ... ReadAzimuth, the line-oriented batch loop,
                                        and the use of the Geodesic instance
  * include/GeographicLib/SphericalHarmonic2.hpp ... the two checked constructors

Floating-point doubles are embedded as exact rationals where the code is pure
branch-and-arithmetic, and as real numbers where the code calls sqrt / sin /
cos / atan2.  Fallible steps (thrown exceptions; divisions and square roots
whose operand the code has to keep in range) are embedded with Except/Option.
-/

/-- Boolean success test for an `Except` value (used to state when a C++
constructor does not throw). -/
def isOkE {α : Type} (e : Except String α) : Bool :=
  match e with
  | Except.ok _ => true
  | Except.error _ => false

/-! ## Geocentric constructor (Geocentric.cpp lines 21-34)

`Geocentric::Geocentric(real a, real f)` stores `_f = (f <= 1 ? f : 1/f)` and
then throws `GeographicErr` unless `_a > 0` (and finite) and `_f < 1` (and
finite).  Over exact rationals the finiteness tests are vacuous. -/

/-- Embedding of the member initializer `_f(f <= 1 ? f : 1/f)` of
`Geocentric::Geocentric` (Geocentric.cpp line 23): a parameter above 1 is
reinterpreted as an inverse flattening. -/
def geocentricStoredF (f : ℚ) : ℚ :=
  if f ≤ 1 then f else 1 / f

/-- Embedding of the `Geocentric::Geocentric(real a, real f)` constructor
(Geocentric.cpp lines 21-34): store the (possibly reinterpreted) flattening,
then check `_a > 0` and `_f < 1`, throwing in the other cases.  Returns the
stored pair `(_a, _f)` on success. -/
def geocentricInit (a f : ℚ) : Except String (ℚ × ℚ) :=
  let fs := geocentricStoredF f
  if ¬ 0 < a then Except.error ("Major radius is not positive")
  else if ¬ fs < 1 then Except.error ("Minor radius is not positive")
  else Except.ok (a, fs)

/-! ## ReadAzimuth (Geod.cpp lines 102-113)

`ReadAzimuth` decodes the DMS string (decoder not under src/) and then, on the
decoded number: rejects values outside `[-180, 360]` with `std::out_of_range`,
and subtracts 360 from values `>= 180`. -/

/-- Embedding of the numeric part of `ReadAzimuth` (Geod.cpp lines 102-113),
acting on the already-decoded azimuth value. -/
def readAzimuth (azi : ℚ) : Except String ℚ :=
  if ¬ (-180 ≤ azi ∧ azi ≤ 360) then Except.error ("Azimuth not in range [-180,360]")
  else Except.ok (if 180 ≤ azi then azi - 360 else azi)

/-! ## Longitude adjustment (Geocentric.cpp line 42)

`IntForward` starts with
`lon = lon >= 180 ? lon - 360 : (lon < -180 ? lon + 360 : lon);`
a single conditional shift by 360. -/

/-- Embedding of the longitude adjustment at the top of
`Geocentric::IntForward` (Geocentric.cpp line 42). -/
def normLon (lon : ℚ) : ℚ :=
  if 180 ≤ lon then lon - 360 else if lon < -180 then lon + 360 else lon

/-! ## The batch loop of Geod.cpp (lines 169-221)

`main` reads stdin line by line; each line is parsed and computed inside a
`try` block; `catch (std::out_of_range)` prints `"ERROR: " + e.what()` to the
same output stream and sets `retval = 1`, and the `while` loop then continues
with the next line.  The per-line parse-and-compute step is abstracted as a
function from the input line to `Except String String` (error message or
output line). -/

/-- Output line produced for one input line by the loop body of `main`
(Geod.cpp lines 169-219): the computed record on success, or the
`"ERROR: " + e.what()` line printed by the catch handler. -/
def renderLine (compute : String → Except String String) (line : String) : String :=
  match compute line with
  | Except.ok out => out
  | Except.error e => "ERROR: " ++ e

/-- One iteration of the `while (std::getline(...))` loop of `main`
(Geod.cpp lines 169-220).  State is `(retval, output lines so far)`. -/
def stepLine (compute : String → Except String String) (st : Nat × List String)
    (line : String) : Nat × List String :=
  match compute line with
  | Except.ok out => (st.1, st.2 ++ [out])
  | Except.error e => (1, st.2 ++ ["ERROR: " ++ e])

/-- The whole batch loop of `main` (Geod.cpp lines 168-221): fold the loop
body over the input lines starting from `retval = 0` and no output. -/
def runBatch (compute : String → Except String String) (lines : List String) :
    Nat × List String :=
  List.foldl (stepLine compute) (0, []) lines

/-- Case split for an `Except` value. -/
theorem exceptCases {α : Type} (e : Except String α) :
    (∃ out, e = Except.ok out) ∨ (∃ msg, e = Except.error msg) := by
  cases e with
  | ok out => exact Or.inl ⟨out, rfl⟩
  | error msg => exact Or.inr ⟨msg, rfl⟩

/-- Folding the loop body from an arbitrary intermediate state appends one
rendered line per input line and forces `retval = 1` as soon as any line
fails. -/
theorem foldl_stepLine (compute : String → Except String String)
    (lines : List String) (st : Nat × List String) :
    List.foldl (stepLine compute) st lines
      = (if lines.all (fun l => isOkE (compute l)) then st.1 else 1,
         st.2 ++ lines.map (renderLine compute)) := by
  induction lines generalizing st with
  | nil => simp
  | cons l ls ih =>
    simp only [List.foldl_cons, List.all_cons, List.map_cons]
    rcases exceptCases (compute l) with ⟨out, hout⟩ | ⟨msg, hmsg⟩
    · rw [show stepLine compute st l = (st.1, st.2 ++ [out]) by
        simp [stepLine, hout]]
      rw [ih]
      simp only [show renderLine compute l = out by simp [renderLine, hout]]
      simp only [show isOkE (compute l) = true by simp [isOkE, hout]]
      simp
    · rw [show stepLine compute st l = (1, st.2 ++ ["ERROR: " ++ msg]) by
        simp [stepLine, hmsg]]
      rw [ih]
      simp only [show renderLine compute l = "ERROR: " ++ msg by
        simp [renderLine, hmsg]]
      simp only [show isOkE (compute l) = false by simp [isOkE, hmsg]]
      simp

/-! ## SphericalHarmonic2 constructors (SphericalHarmonic2.hpp lines 84-154)

The two checked constructors throw `GeographicErr` when a correction series is
larger than the main series, and otherwise store the three
`SphericalEngine::coeff` objects, the reference radius and the normalization. -/

/-- Normalization selector of `SphericalHarmonic2`
(SphericalHarmonic2.hpp lines 33-48). -/
inductive SHNorm where
  | full
  | schmidt
deriving DecidableEq

/-- Modelled from the spec: `SphericalEngine::coeff` (SphericalEngine.hpp is
not under src/).  Per the header documentation of SphericalHarmonic2.hpp
(lines 77-82 and 131-133) a coeff object simply records the coefficient
arrays C and S and the layout integers; the full-set constructor
`coeff(C, S, N)` uses `N` as degree, maximum degree and maximum order, and the
subset constructor `coeff(C, S, N, nmx, mmx)` records all three. -/
structure SHCoeff where
  Cv : List ℚ
  Sv : List ℚ
  N : Int
  nmx : Int
  mmx : Int
deriving DecidableEq

/-- State stored by a constructed `SphericalHarmonic2`
(SphericalHarmonic2.hpp lines 50-54): the three coefficient sets `_c[3]`, the
reference radius `_a` and the normalization `_norm`. -/
structure SH2 where
  c0 : SHCoeff
  c1 : SHCoeff
  c2 : SHCoeff
  a : ℚ
  norm : SHNorm
deriving DecidableEq

/-- Embedding of the full-set constructor of `SphericalHarmonic2`
(SphericalHarmonic2.hpp lines 84-101): throws unless `N1 <= N && N2 <= N`,
otherwise stores the three coefficient sets unchanged. -/
def sh2Full (C S : List ℚ) (N : Int) (C1 S1 : List ℚ) (N1 : Int)
    (C2 S2 : List ℚ) (N2 : Int) (a : ℚ) (norm : SHNorm) : Except String SH2 :=
  if ¬ (N1 ≤ N ∧ N2 ≤ N) then Except.error ("N1 and N2 cannot be larger that N")
  else Except.ok (SH2.mk (SHCoeff.mk C S N N N) (SHCoeff.mk C1 S1 N1 N1 N1)
    (SHCoeff.mk C2 S2 N2 N2 N2) a norm)

/-- Embedding of the subset constructor of `SphericalHarmonic2`
(SphericalHarmonic2.hpp lines 135-154): throws unless
`nmx1 <= nmx && nmx2 <= nmx` and `mmx1 <= mmx && mmx2 <= mmx`, otherwise
stores the three coefficient sets unchanged. -/
def sh2Subset (C S : List ℚ) (N nmx mmx : Int) (C1 S1 : List ℚ)
    (N1 nmx1 mmx1 : Int) (C2 S2 : List ℚ) (N2 nmx2 mmx2 : Int)
    (a : ℚ) (norm : SHNorm) : Except String SH2 :=
  if ¬ (nmx1 ≤ nmx ∧ nmx2 ≤ nmx) then
    Except.error ("nmx1 and nmx2 cannot be larger that nmx")
  else if ¬ (mmx1 ≤ mmx ∧ mmx2 ≤ mmx) then
    Except.error ("mmx1 and mmx2cannot be larger that mmx")
  else Except.ok (SH2.mk (SHCoeff.mk C S N nmx mmx)
    (SHCoeff.mk C1 S1 N1 nmx1 mmx1) (SHCoeff.mk C2 S2 N2 nmx2 mmx2) a norm)

/-! ## Mutable diagnostic counters of the Geodesic instance

Geodesic.cpp / Geodesic.hpp are not under src/; the CLI caller Geod.cpp is.
There, `geod` is a `const GeographicLib::Geodesic&` (line 157), and
immediately after `geod.Inverse(lat1, lon1, lat2, lon2, s12, azi1, azi2)`
(line 190) the program prints `geod.itera` and `geod.iterb` (line 191) as
diagnostics of that call, so `Inverse` delivers the per-call iteration counts
by writing these instance fields. -/

/-- Modelled from the spec: the observable state of a Geodesic instance that
the caller in Geod.cpp exercises - the immutable shape parameters `(a, f)`
fixed at construction (spec section 3, Ellipsoid) and the per-call iteration
counters `itera`, `iterb` read by Geod.cpp line 191. -/
structure GeodesicState where
  a : ℚ
  f : ℚ
  itera : Nat
  iterb : Nat
deriving DecidableEq

/-- Modelled from the spec: spec section 4.3 solves identical points as a
special case "without iteration" and otherwise refines by Newton iteration in
two capped phases, so a special-cased query reports zero iterations of each
phase and an iterated query reports at least one.  The exact counts live in
the missing Geodesic.cpp; only the fact that they differ between the two kinds
of query matters here, so the iterated case is modelled with the minimum
count 1. -/
def inverseIterCounts (lat1 lon1 lat2 lon2 : ℚ) : Nat × Nat :=
  if lat1 = lat2 ∧ lon1 = lon2 then (0, 0) else (1, 1)

/-- Modelled from the spec: the effect of `Geodesic::Inverse` on the instance
it is called on.  The shape parameters are read-only (spec section 3); the
diagnostic counters `itera`/`iterb` are written with the iteration counts of
the call, as exhibited by the caller Geod.cpp lines 190-191. -/
def inverseStateEffect (g : GeodesicState) (lat1 lon1 lat2 lon2 : ℚ) :
    GeodesicState :=
  GeodesicState.mk g.a g.f (inverseIterCounts lat1 lon1 lat2 lon2).1
    (inverseIterCounts lat1 lon1 lat2 lon2).2

/-- Modelled from the spec: the effect of `Geodesic::Direct` on the instance -
spec section 4.2, "Side effects: none (pure function of ellipsoid +
inputs)". -/
def directStateEffect (g : GeodesicState) (_lat1 _lon1 _azi1 _s12 : ℚ) :
    GeodesicState := g

/-- Modelled from the spec: the effect of `GeodesicLine::Position` on the
owning Geodesic instance - spec sections 3 and 4.4, stepping along a line is a
pure function of the immutable snapshot. -/
def positionStateEffect (g : GeodesicState) (_s12 : ℚ) : GeodesicState := g

/-! ## Claim theorems on the rational part -/

/-- Claim C2, counterexample: the claim says construction from flattening 2
(which is `>= 1` and finite) must fail with InvalidParameter, but the code
reinterprets any `f > 1` as an inverse flattening `1/f` (Geocentric.cpp
line 23) and accepts `(a, f) = (1, 2)`. -/
theorem geocentricInit_claim_counterexample :
    (1 : ℚ) ≤ 2 ∧ isOkE (geocentricInit 1 2) = true := by
  have h2 : geocentricStoredF 2 = 1/2 := by
    unfold geocentricStoredF
    norm_num
  constructor
  · norm_num
  · simp only [geocentricInit, h2]
    norm_num [isOkE]

/-- Claim C2, amended: over exact (finite) parameters, construction from
`(a, f)` succeeds if and only if `a > 0` and `f ≠ 1`; a flattening `f > 1` is
reinterpreted as inverse flattening `1/f` and accepted.  (The error is raised
only by the constructor; the query functions embedded below are total.) -/
theorem geocentricInit_ok_iff (a f : ℚ) :
    isOkE (geocentricInit a f) = true ↔ (0 < a ∧ f ≠ 1) := by
  simp only [geocentricInit]
  by_cases ha : 0 < a
  · rw [if_neg (not_not_intro ha)]
    by_cases hf : f ≤ 1
    · have hst : geocentricStoredF f = f := by
        unfold geocentricStoredF
        rw [if_pos hf]
      rw [hst]
      by_cases h1 : f = 1
      · subst h1
        rw [if_pos (by norm_num)]
        simp [isOkE]
      · have hlt : f < 1 := lt_of_le_of_ne hf h1
        rw [if_neg (not_not_intro hlt)]
        simp [isOkE, ha, h1]
    · have hgt : 1 < f := not_le.mp hf
      have hst : geocentricStoredF f = 1 / f := by
        unfold geocentricStoredF
        rw [if_neg hf]
      rw [hst]
      have hlt : 1 / f < 1 := by
        rw [div_lt_one (lt_trans one_pos hgt)]
        exact hgt
      rw [if_neg (not_not_intro hlt)]
      simp [isOkE, ha, ne_of_gt hgt]
  · rw [if_pos ha]
    simp [isOkE, ha]

/-- Claim C2, witness for the amended theorem: `(a, f) = (6378137, 1/298)` is
accepted, `(a, f) = (1, 1)` is rejected. -/
theorem geocentricInit_ok_iff_witness :
    isOkE (geocentricInit 6378137 (1/298)) = true
      ∧ isOkE (geocentricInit 1 1) ≠ true := by
  constructor
  · exact (geocentricInit_ok_iff 6378137 (1/298)).mpr (by norm_num)
  · intro h
    have := (geocentricInit_ok_iff 1 1).mp h
    exact this.2 rfl

/-- Claim C8: in the constructor parameter of Geocentric.cpp line 23, a value
at least 1 is treated by the usual oblate convention (stored flattening is its
reciprocal), a value below 1 is taken as the flattening itself, and a negative
value yields a negative (prolate) flattening. -/
theorem geocentricStoredF_convention (v : ℚ) :
    (1 ≤ v → geocentricStoredF v = 1 / v)
      ∧ (v < 1 → geocentricStoredF v = v)
      ∧ (v < 0 → geocentricStoredF v < 0) := by
  refine ⟨fun h1 => ?_, fun h2 => ?_, fun h3 => ?_⟩
  · rcases eq_or_lt_of_le h1 with rfl | hlt
    · simp [geocentricStoredF]
    · simp [geocentricStoredF, not_le.mpr hlt]
  · simp [geocentricStoredF, le_of_lt h2]
  · simp only [geocentricStoredF, if_pos (le_of_lt (lt_trans h3 one_pos))]
    exact h3

/-- Claim C8, witness: inverse flattening 297 gives stored flattening 1/297;
the value 1/2 is taken as the flattening itself; the value -1/10 gives a
prolate (negative) stored flattening. -/
theorem geocentricStoredF_convention_witness :
    geocentricStoredF 297 = 1 / 297
      ∧ geocentricStoredF (1/2) = 1/2
      ∧ geocentricStoredF (-1/10) < 0 := by
  refine ⟨(geocentricStoredF_convention 297).1 (by norm_num),
    ((geocentricStoredF_convention (1/2)).2.1 (by norm_num)),
    ((geocentricStoredF_convention (-1/10)).2.2 (by norm_num))⟩

/-- Claim C6, counterexample: the claim says accepted azimuths are normalized
into the half-open interval `(-180, 180]`, but `ReadAzimuth` (Geod.cpp
line 108) maps the accepted input 180 to -180, which is outside
`(-180, 180]`. -/
theorem readAzimuth_claim_counterexample :
    readAzimuth 180 = Except.ok (-180)
      ∧ ¬ ((-180 : ℚ) > -180 ∧ (-180 : ℚ) ≤ 180) := by
  constructor
  · unfold readAzimuth
    norm_num
  · intro h
    exact absurd h.1 (lt_irrefl _)

/-- Claim C6, amended: `ReadAzimuth` accepts exactly the azimuths in
`[-180, 360]`, rejecting the rest with an out-of-range error at entry, and
normalizes every accepted value into the half-open interval `[-180, 180)`
(closed at -180, open at 180). -/
theorem readAzimuth_range (azi : ℚ) :
    (isOkE (readAzimuth azi) = true ↔ (-180 ≤ azi ∧ azi ≤ 360))
      ∧ (∀ v, readAzimuth azi = Except.ok v → -180 ≤ v ∧ v < 180) := by
  unfold readAzimuth
  by_cases h : -180 ≤ azi ∧ azi ≤ 360
  · obtain ⟨hlo, hhi⟩ := h
    rw [if_neg (not_not_intro ⟨hlo, hhi⟩)]
    refine ⟨by simp [isOkE, hlo, hhi], ?_⟩
    intro v hv
    have hv2 := Except.ok.inj hv
    by_cases h180 : 180 ≤ azi
    · rw [if_pos h180] at hv2
      subst hv2
      exact ⟨by linarith, by linarith⟩
    · rw [if_neg h180] at hv2
      subst hv2
      exact ⟨hlo, lt_of_not_le h180⟩
  · rw [if_pos h]
    refine ⟨by simp [isOkE, h], ?_⟩
    intro v hv
    exact absurd hv (by simp)

/-- Claim C6, witness for the amended theorem: azimuth 270 is accepted and
normalized to -90, which lies in `[-180, 180)`. -/
theorem readAzimuth_range_witness :
    isOkE (readAzimuth 270) = true ∧ (-180 ≤ (-90 : ℚ) ∧ (-90 : ℚ) < 180) := by
  refine ⟨(readAzimuth_range 270).1.mpr (by norm_num), ?_⟩
  refine (readAzimuth_range 270).2 (-90) ?_
  unfold readAzimuth
  norm_num

/-- Claim C9: in the batch loop of Geod.cpp, every input line yields exactly
one output line computed from that line alone, a failing line yields the
textual `"ERROR: ..."` line, and the exit status is 0 exactly when no line
failed (so 1 records that some line failed while the remaining lines were
still processed). -/
theorem runBatch_lines (compute : String → Except String String)
    (lines : List String) :
    (runBatch compute lines).2 = lines.map (renderLine compute)
      ∧ ((runBatch compute lines).1 = 0
          ↔ ∀ l ∈ lines, isOkE (compute l) = true)
      ∧ (∀ l e, compute l = Except.error e →
          renderLine compute l = "ERROR: " ++ e) := by
  have h := foldl_stepLine compute lines (0, [])
  unfold runBatch
  rw [h]
  refine ⟨by simp, ?_, ?_⟩
  · by_cases hall : lines.all (fun l => isOkE (compute l)) = true
    · simp only [if_pos hall]
      simp only [List.all_eq_true] at hall
      simp only [eq_self_iff_true, true_iff]
      exact hall
    · simp only [if_neg hall]
      simp only [List.all_eq_true] at hall
      constructor
      · intro h10
        exact absurd h10 one_ne_zero
      · intro hk
        exact absurd hk hall
  · intro l e he
    unfold renderLine
    rw [he]

/-- Claim C9, witness: with a concrete per-line computation that fails on the
middle line, the batch loop still answers all three lines, marks the middle
one with an ERROR line, and reports a nonzero status. -/
theorem runBatch_lines_witness :
    (runBatch
        (fun s => if s = "bad" then Except.error ("Incomplete input") else Except.ok s)
        (["one", "bad", "two"])).2
      = ["one", "ERROR: Incomplete input", "two"]
      ∧ ¬ ((runBatch
        (fun s => if s = "bad" then Except.error ("Incomplete input") else Except.ok s)
        (["one", "bad", "two"])).1 = 0) := by
  have h := runBatch_lines
    (fun s => if s = "bad" then Except.error ("Incomplete input") else Except.ok s)
    (["one", "bad", "two"])
  refine ⟨h.1.trans (by simp [renderLine]), fun h0 => ?_⟩
  have hb := (h.2.1.mp h0) "bad" (by simp)
  simp [isOkE] at hb

/-- Claim C10: both SphericalHarmonic2 constructors enforce that the
correction series are no larger than the main series - the full-set
constructor succeeds exactly when `N1 <= N` and `N2 <= N`, the subset
constructor exactly when `nmx1 <= nmx`, `nmx2 <= nmx`, `mmx1 <= mmx` and
`mmx2 <= mmx` - and on success the three coefficient sets are stored
unchanged. -/
theorem sh2_ctor_checks (C S : List ℚ) (N nmx mmx : Int) (C1 S1 : List ℚ)
    (N1 nmx1 mmx1 : Int) (C2 S2 : List ℚ) (N2 nmx2 mmx2 : Int)
    (a : ℚ) (norm : SHNorm) :
    (isOkE (sh2Full C S N C1 S1 N1 C2 S2 N2 a norm) = true
        ↔ (N1 ≤ N ∧ N2 ≤ N))
      ∧ (∀ s, sh2Full C S N C1 S1 N1 C2 S2 N2 a norm = Except.ok s →
          s.c0.Cv = C ∧ s.c0.Sv = S ∧ s.c1.Cv = C1 ∧ s.c1.Sv = S1
            ∧ s.c2.Cv = C2 ∧ s.c2.Sv = S2)
      ∧ (isOkE (sh2Subset C S N nmx mmx C1 S1 N1 nmx1 mmx1
            C2 S2 N2 nmx2 mmx2 a norm) = true
          ↔ ((nmx1 ≤ nmx ∧ nmx2 ≤ nmx) ∧ (mmx1 ≤ mmx ∧ mmx2 ≤ mmx)))
      ∧ (∀ s, sh2Subset C S N nmx mmx C1 S1 N1 nmx1 mmx1
            C2 S2 N2 nmx2 mmx2 a norm = Except.ok s →
          s.c0.Cv = C ∧ s.c0.Sv = S ∧ s.c1.Cv = C1 ∧ s.c1.Sv = S1
            ∧ s.c2.Cv = C2 ∧ s.c2.Sv = S2) := by
  refine ⟨?_, ?_, ?_, ?_⟩
  · unfold sh2Full isOkE
    by_cases h : N1 ≤ N ∧ N2 ≤ N
    · simp [h]
    · simp [h]
  · intro s hs
    unfold sh2Full at hs
    by_cases h : N1 ≤ N ∧ N2 ≤ N
    · rw [if_neg (not_not_intro h)] at hs
      have := Except.ok.inj hs
      subst this
      exact ⟨rfl, rfl, rfl, rfl, rfl, rfl⟩
    · rw [if_pos h] at hs
      exact absurd hs (by simp)
  · unfold sh2Subset isOkE
    by_cases h1 : nmx1 ≤ nmx ∧ nmx2 ≤ nmx
    · by_cases h2 : mmx1 ≤ mmx ∧ mmx2 ≤ mmx
      · simp [h1, h2]
      · simp [h1, h2]
    · simp [h1]
  · intro s hs
    unfold sh2Subset at hs
    by_cases h1 : nmx1 ≤ nmx ∧ nmx2 ≤ nmx
    · by_cases h2 : mmx1 ≤ mmx ∧ mmx2 ≤ mmx
      · rw [if_neg (not_not_intro h1), if_neg (not_not_intro h2)] at hs
        have := Except.ok.inj hs
        subst this
        exact ⟨rfl, rfl, rfl, rfl, rfl, rfl⟩
      · rw [if_neg (not_not_intro h1), if_pos h2] at hs
        exact absurd hs (by simp)
    · rw [if_pos h1] at hs
      exact absurd hs (by simp)

/-- Claim C10, witness: a concrete accepted full-set call stores its
coefficient lists unchanged, and a concrete subset call with `mmx1 > mmx` is
rejected. -/
theorem sh2_ctor_checks_witness :
    isOkE (sh2Full [1] [0] 0 [1] [0] 0 [1] [0] 0 1 SHNorm.full) = true
      ∧ isOkE (sh2Subset [1] [0] 2 2 1 [1] [0] 2 2 2 [1] [0] 2 2 1
          1 SHNorm.full) ≠ true := by
  constructor
  · exact (sh2_ctor_checks [1] [0] 0 2 1 [1] [0] 0 2 2 [1] [0] 0 2 1
      1 SHNorm.full).1.mpr (by norm_num)
  · intro hcl
    have := (sh2_ctor_checks [1] [0] 2 2 1 [1] [0] 2 2 2 [1] [0] 2 2 1
      1 SHNorm.full).2.2.1.mp hcl
    omega

/-- Claim C1, counterexample: the claim says the instance state after any
query equals its state before, but an `Inverse` call writes the per-call
iteration counters `itera`/`iterb` into the (const) instance - exhibited by
Geod.cpp line 191 reading them right after the call - so an instance left
with counters (0, 0) by a special-cased query is mutated by a subsequent
iterated query. -/
theorem inverse_mutates_counterexample :
    inverseStateEffect (GeodesicState.mk 6378137 (1/298) 0 0) 0 0 1 1
      ≠ GeodesicState.mk 6378137 (1/298) 0 0 := by
  intro hEq
  have hIt := congrArg GeodesicState.itera hEq
  have hc : ¬ ((0 : ℚ) = 1 ∧ (0 : ℚ) = 1) := by norm_num
  simp only [inverseStateEffect, inverseIterCounts, if_neg hc] at hIt
  exact one_ne_zero hIt

/-- Claim C1, amended: `Direct` and line `Position` queries leave the
instance unchanged, and an `Inverse` query leaves the shape parameters (and
hence the coefficient tables derived from them) unchanged, writing only the
two diagnostic iteration counters; an instance is therefore not read-only
under concurrent `Inverse` callers. -/
theorem queries_preserve_shape (g : GeodesicState)
    (lat1 lon1 lat2 lon2 azi1 s12 : ℚ) :
    directStateEffect g lat1 lon1 azi1 s12 = g
      ∧ positionStateEffect g s12 = g
      ∧ (inverseStateEffect g lat1 lon1 lat2 lon2).a = g.a
      ∧ (inverseStateEffect g lat1 lon1 lat2 lon2).f = g.f :=
  ⟨rfl, rfl, rfl, rfl⟩

/-! ## Real-number toolbox for Geocentric.cpp

`Math::hypot`, `atan2`, `Math::cbrt` and the degree constant, embedded over the
exact reals.  `atan2(y, x)` is the argument of the complex number `x + i y`,
with values in the interval from -pi (excluded) to pi (included), exactly the
C convention away from the (0,0) corner case. -/

/-- Embedding of `Math::hypot`. -/
noncomputable def hypotR (x y : ℝ) : ℝ := Real.sqrt (x^2 + y^2)

/-- Embedding of `atan2(y, x)` as the complex argument of `x + i y`. -/
noncomputable def atan2R (y x : ℝ) : ℝ := Complex.arg ⟨x, y⟩

/-- Embedding of `Math::cbrt`, the real cube root. -/
noncomputable def cbrtR (x : ℝ) : ℝ :=
  if 0 ≤ x then x ^ ((1:ℝ)/3) else -((-x) ^ ((1:ℝ)/3))

/-- Embedding of `Math::degree`, radians per degree. -/
noncomputable def degreeR : ℝ := Real.pi / 180

/-- Embedding of `numeric_limits<real>::epsilon()` for double precision. -/
noncomputable def epsR : ℝ := 1 / 2^52

/-- A hypotenuse vanishes only when both legs do. -/
theorem hypotR_eq_zero_iff (x y : ℝ) : hypotR x y = 0 ↔ x = 0 ∧ y = 0 := by
  unfold hypotR
  rw [Real.sqrt_eq_zero']
  constructor
  · intro h
    have hx2 : x^2 = 0 := le_antisymm (by nlinarith [sq_nonneg y]) (sq_nonneg x)
    have hy2 : y^2 = 0 := le_antisymm (by nlinarith [sq_nonneg x]) (sq_nonneg y)
    exact ⟨sq_eq_zero_iff.mp hx2, sq_eq_zero_iff.mp hy2⟩
  · rintro ⟨rfl, rfl⟩
    norm_num

/-- Range of the embedded `atan2`. -/
theorem atan2R_mem (y x : ℝ) : -Real.pi < atan2R y x ∧ atan2R y x ≤ Real.pi := by
  unfold atan2R
  exact ⟨Complex.neg_pi_lt_arg _, Complex.arg_le_pi _⟩

/-- The real cube root undoes cubing of a positive number (in the
`r * r^2` form used by `IntReverse`). -/
theorem cbrtR_cube_of_pos (r : ℝ) (hr : 0 < r) : cbrtR (r * r^2) = r := by
  have h3 : r * r^2 = r^(3:ℕ) := by ring
  unfold cbrtR
  rw [h3, if_pos (by positivity)]
  rw [← Real.rpow_natCast r 3, ← Real.rpow_mul hr.le]
  norm_num

/-- Final conversion of `IntReverse` (Geocentric.cpp lines 157-159):
`lat = atan2(sphi, cphi)/degree` and `lon = -atan2(-slam, clam)/degree`
(the negations put `lon` in `[-180, 180)`), packaged with the height. -/
noncomputable def latLonOf (sphi cphi slam clam h : ℝ) : ℝ × ℝ × ℝ :=
  (atan2R sphi cphi / degreeR, -(atan2R (-slam) clam) / degreeR, h)

/-! ## IntForward (Geocentric.cpp lines 39-57)

The one fallible spot is `n = _a/sqrt(1 - _e2 * sq(sphi))`: the radicand must
be nonnegative and the divisor nonzero; both are recorded in the guard. -/

/-- Embedding of `Geocentric::IntForward` (Geocentric.cpp lines 39-57),
returning `(x, y, z)`; `none` would signal a negative radicand or zero
divisor. -/
noncomputable def intForward (a f lat lon h : ℝ) : Option (ℝ × ℝ × ℝ) :=
  let e2 := f * (2 - f)
  let e2m := (1 - f)^2
  let lon2 := if 180 ≤ lon then lon - 360 else if lon < -180 then lon + 360 else lon
  let phi := lat * degreeR
  let lam := lon2 * degreeR
  let sphi := Real.sin phi
  let cphi := if |lat| = 90 then 0 else Real.cos phi
  let slam := if lon2 = -180 then 0 else Real.sin lam
  let clam := if |lon2| = 90 then 0 else Real.cos lam
  if 0 ≤ 1 - e2 * sphi^2 ∧ Real.sqrt (1 - e2 * sphi^2) ≠ 0 then
    let n := a / Real.sqrt (1 - e2 * sphi^2)
    some ((n + h) * cphi * clam, (n + h) * cphi * slam, (e2m * n + h) * sphi)
  else none

/-! ## IntReverse (Geocentric.cpp lines 59-162)

Each arm of the computation is embedded separately; every division whose
divisor the code keeps nonzero by reasoning (rather than by an explicit
branch) and every square root whose radicand must stay nonnegative is
recorded in that arm's guard, so `isSome` certifies that no NaN or infinity
can arise on the arm. -/

/-- Embedding of the Cardano step of `IntReverse` (Geocentric.cpp lines
98-122), producing `u`.  The square roots here are guarded by the sign test
on `disc` in the code itself, and the division `r2 / T` by the `T != 0`
test. -/
noncomputable def cubicU (e4a p q r : ℝ) : ℝ :=
  let S := e4a * p * q / 4
  let r2 := r^2
  let r3 := r * r2
  let disc := S * (2 * r3 + S)
  if 0 ≤ disc then
    let T3 := (S + r3) + (if S + r3 < 0 then -Real.sqrt disc else Real.sqrt disc)
    let T := cbrtR T3
    r + (T + (if T = 0 then 0 else r2 / T))
  else
    r + 2 * r * Real.cos (atan2R (Real.sqrt (-disc)) (-(S + r3)) / 3)

/-- With `q = 0` (point in the equatorial plane after the prolate swap) and
`r > 0`, the Cardano step degenerates to `u = 3r`: `S = 0`, `disc = 0`,
`T = r`. -/
theorem cubicU_q_zero (e4a p r : ℝ) (hr : 0 < r) : cubicU e4a p 0 r = 3 * r := by
  simp only [cubicU, mul_zero, zero_div, zero_mul, zero_add, add_zero,
    Real.sqrt_zero, neg_zero, ite_self, le_refl, if_true]
  rw [cbrtR_cube_of_pos r hr]
  rw [if_neg hr.ne']
  rw [pow_two, mul_div_assoc, div_self hr.ne', mul_one]
  ring

/-- The quantity `v = sqrt(sq(u) + e4 * q)` of Geocentric.cpp line 124. -/
noncomputable def vQ (e4a p q r : ℝ) : ℝ :=
  Real.sqrt ((cubicU e4a p q r)^2 + e4a * q)

/-- The quantity `uv` of Geocentric.cpp line 127: `e4 * q / (v - u)` when
`u < 0` (guaranteed positive per the code comment), else `u + v`. -/
noncomputable def uvQ (e4a p q r : ℝ) : ℝ :=
  if cubicU e4a p q r < 0 then e4a * q / (vQ e4a p q r - cubicU e4a p q r)
  else cubicU e4a p q r + vQ e4a p q r

/-- The quantity `w` of Geocentric.cpp line 129, clamped to zero from below
to guard against `uv - q` going negative due to roundoff. -/
noncomputable def wQ (e2a e4a p q r : ℝ) : ℝ :=
  max 0 (e2a * (uvQ e4a p q r - q) / (2 * vQ e4a p q r))

/-- The quantity `k` of Geocentric.cpp line 132, in the rearranged form
`uv / (sqrt(uv + sq(w)) + w)` whose divisor cannot vanish since `uv > 0`
and `w >= 0`. -/
noncomputable def kQ (e2a e4a p q r : ℝ) : ℝ :=
  uvQ e4a p q r
    / (Real.sqrt (uvQ e4a p q r + (wQ e2a e4a p q r)^2) + wQ e2a e4a p q r)

/-- The divisor `k1` of Geocentric.cpp line 133 (`k` for oblate, `k - e2`
for prolate). -/
noncomputable def k1Q (f e2 e2a e4a p q r : ℝ) : ℝ :=
  if 0 ≤ f then kQ e2a e4a p q r else kQ e2a e4a p q r - e2

/-- The divisor `k2` of Geocentric.cpp line 134 (`k + e2` for oblate, `k`
for prolate). -/
noncomputable def k2Q (f e2 e2a e4a p q r : ℝ) : ℝ :=
  if 0 ≤ f then kQ e2a e4a p q r + e2 else kQ e2a e4a p q r

/-- `v` is positive on the main arm: either `e4 * q > 0` makes the radicand
positive, or `q = 0` forces `r > 0` (arm guard) and `u = 3r > 0`. -/
theorem vQ_pos (e2 e4a p q r : ℝ) (he4a : e4a = e2^2) (he2 : e2 ≠ 0)
    (hq : 0 ≤ q) (harm : ¬ (e4a * q = 0 ∧ r ≤ 0)) : 0 < vQ e4a p q r := by
  have he4ne : e4a ≠ 0 := by
    rw [he4a]
    exact pow_ne_zero 2 he2
  have he4nn : 0 ≤ e4a := by
    rw [he4a]
    positivity
  unfold vQ
  rw [Real.sqrt_pos]
  rcases eq_or_lt_of_le (mul_nonneg he4nn hq) with h0 | hpos
  · have hq0 : q = 0 := by
      rcases mul_eq_zero.mp h0.symm with h | h
      · exact absurd h he4ne
      · exact h
    subst hq0
    have hr : 0 < r := by
      by_contra hns
      exact harm ⟨by rw [mul_zero], not_lt.mp hns⟩
    rw [cubicU_q_zero e4a p r hr]
    nlinarith [mul_pos hr hr]
  · nlinarith [sq_nonneg (cubicU e4a p q r)]

/-- `uv` is positive on the main arm (the code comment "u+v, guaranteed
positive" at Geocentric.cpp line 127). -/
theorem uvQ_pos (e2 e4a p q r : ℝ) (he4a : e4a = e2^2) (he2 : e2 ≠ 0)
    (hq : 0 ≤ q) (harm : ¬ (e4a * q = 0 ∧ r ≤ 0)) : 0 < uvQ e4a p q r := by
  have hv := vQ_pos e2 e4a p q r he4a he2 hq harm
  have he4ne : e4a ≠ 0 := by
    rw [he4a]
    exact pow_ne_zero 2 he2
  have he4nn : 0 ≤ e4a := by
    rw [he4a]
    positivity
  unfold uvQ
  by_cases hu : cubicU e4a p q r < 0
  · rw [if_pos hu]
    have hq0 : 0 < e4a * q := by
      rcases eq_or_lt_of_le (mul_nonneg he4nn hq) with h0 | hpos
      · exfalso
        have hqz : q = 0 := by
          rcases mul_eq_zero.mp h0.symm with h | h
          · exact absurd h he4ne
          · exact h
        subst hqz
        have hr : 0 < r := by
          by_contra hns
          exact harm ⟨by rw [mul_zero], not_lt.mp hns⟩
        rw [cubicU_q_zero e4a p r hr] at hu
        linarith
      · exact hpos
    exact div_pos hq0 (by linarith)
  · rw [if_neg hu]
    push_neg at hu
    linarith

/-- `k` is positive on the main arm (the code comment "Division by 0 not
possible because uv > 0, w >= 0" at Geocentric.cpp line 131). -/
theorem kQ_pos (e2 e2a e4a p q r : ℝ) (he4a : e4a = e2^2) (he2 : e2 ≠ 0)
    (hq : 0 ≤ q) (harm : ¬ (e4a * q = 0 ∧ r ≤ 0)) : 0 < kQ e2a e4a p q r := by
  have huv := uvQ_pos e2 e4a p q r he4a he2 hq harm
  have hw : 0 ≤ wQ e2a e4a p q r := by
    unfold wQ
    exact le_max_left _ _
  unfold kQ
  apply div_pos huv
  have hs : 0 < Real.sqrt (uvQ e4a p q r + (wQ e2a e4a p q r)^2) := by
    rw [Real.sqrt_pos]
    nlinarith [sq_nonneg (wQ e2a e4a p q r)]
  linarith

/-- `k1` is positive on the main arm: it is `k > 0` for oblate and
`k - e2 > k > 0` for prolate (where `e2 < 0`). -/
theorem k1Q_pos (f e2 e2a e4a p q r : ℝ) (_hf : f < 1) (he2 : e2 = f * (2 - f))
    (he2ne : e2 ≠ 0) (he4a : e4a = e2^2) (hq : 0 ≤ q)
    (harm : ¬ (e4a * q = 0 ∧ r ≤ 0)) : 0 < k1Q f e2 e2a e4a p q r := by
  have hk := kQ_pos e2 e2a e4a p q r he4a he2ne hq harm
  unfold k1Q
  by_cases hf0 : 0 ≤ f
  · rw [if_pos hf0]
    exact hk
  · rw [if_neg hf0]
    push_neg at hf0
    have he2neg : e2 < 0 := by
      rw [he2]
      exact mul_neg_of_neg_of_pos hf0 (by linarith)
    linarith

/-- `k2` is positive on the main arm: it is `k + e2` with `e2 > 0` for
oblate and `k > 0` for prolate. -/
theorem k2Q_pos (f e2 e2a e4a p q r : ℝ) (hf : f < 1) (he2 : e2 = f * (2 - f))
    (he2ne : e2 ≠ 0) (he4a : e4a = e2^2) (hq : 0 ≤ q)
    (harm : ¬ (e4a * q = 0 ∧ r ≤ 0)) : 0 < k2Q f e2 e2a e4a p q r := by
  have hk := kQ_pos e2 e2a e4a p q r he4a he2ne hq harm
  unfold k2Q
  by_cases hf0 : 0 ≤ f
  · rw [if_pos hf0]
    have hfpos : 0 < f := by
      rcases eq_or_lt_of_le hf0 with h | h
      · exfalso
        apply he2ne
        rw [he2, ← h]
        ring
      · exact h
    have he2pos : 0 < e2 := by
      rw [he2]
      exact mul_pos hfpos (by linarith)
    linarith
  · rw [if_neg hf0]
    exact hk

/-- Embedding of the main arm of `IntReverse` (Geocentric.cpp lines 97-139),
reached when `e4 * q != 0 || r > 0`.  The guard records every radicand and
divisor of the arm: the radicand of `v`, the divisor `v - u` of the `u < 0`
case of `uv`, the divisor `2 * v` of `w`, the radicand and divisor of `k`,
the divisors `k1`, `k2` and the divisor `H = hypot(z/k1, R/k2)`. -/
noncomputable def mainArm (f e2 e2m e2a e4a Rv z slam clam p q r : ℝ) :
    Option (ℝ × ℝ × ℝ) :=
  if 0 ≤ (cubicU e4a p q r)^2 + e4a * q
      ∧ (cubicU e4a p q r < 0 → vQ e4a p q r - cubicU e4a p q r ≠ 0)
      ∧ 2 * vQ e4a p q r ≠ 0
      ∧ 0 ≤ uvQ e4a p q r + (wQ e2a e4a p q r)^2
      ∧ Real.sqrt (uvQ e4a p q r + (wQ e2a e4a p q r)^2) + wQ e2a e4a p q r ≠ 0
      ∧ k1Q f e2 e2a e4a p q r ≠ 0
      ∧ k2Q f e2 e2a e4a p q r ≠ 0
      ∧ hypotR (z / k1Q f e2 e2a e4a p q r) (Rv / k2Q f e2 e2a e4a p q r) ≠ 0
  then some (latLonOf
      (z / k1Q f e2 e2a e4a p q r
        / hypotR (z / k1Q f e2 e2a e4a p q r) (Rv / k2Q f e2 e2a e4a p q r))
      (Rv / k2Q f e2 e2a e4a p q r
        / hypotR (z / k1Q f e2 e2a e4a p q r) (Rv / k2Q f e2 e2a e4a p q r))
      slam clam
      ((1 - e2m / k1Q f e2 e2a e4a p q r)
        * hypotR (k1Q f e2 e2a e4a p q r * Rv / k2Q f e2 e2a e4a p q r) z))
  else none

/-- The main arm always produces a value: every guard obligation holds, so no
division by zero or negative radicand occurs (claim C3's "guarded formulas"
on Geocentric.cpp lines 97-139). -/
theorem mainArm_isSome (f e2 e2m e2a e4a Rv z slam clam p q r : ℝ)
    (hf : f < 1) (he2 : e2 = f * (2 - f)) (he2ne : e2 ≠ 0) (he4a : e4a = e2^2)
    (hq : 0 ≤ q) (harm : ¬ (e4a * q = 0 ∧ r ≤ 0)) (hzr : ¬ (z = 0 ∧ Rv = 0)) :
    (mainArm f e2 e2m e2a e4a Rv z slam clam p q r).isSome := by
  have he4nn : 0 ≤ e4a := by
    rw [he4a]
    positivity
  have hv := vQ_pos e2 e4a p q r he4a he2ne hq harm
  have huv := uvQ_pos e2 e4a p q r he4a he2ne hq harm
  have hw : 0 ≤ wQ e2a e4a p q r := by
    unfold wQ
    exact le_max_left _ _
  have hk1 := k1Q_pos f e2 e2a e4a p q r hf he2 he2ne he4a hq harm
  have hk2 := k2Q_pos f e2 e2a e4a p q r hf he2 he2ne he4a hq harm
  have hsq : 0 < Real.sqrt (uvQ e4a p q r + (wQ e2a e4a p q r)^2) := by
    rw [Real.sqrt_pos]
    nlinarith [sq_nonneg (wQ e2a e4a p q r)]
  have hH : hypotR (z / k1Q f e2 e2a e4a p q r) (Rv / k2Q f e2 e2a e4a p q r) ≠ 0 := by
    intro h0
    rcases (hypotR_eq_zero_iff _ _).mp h0 with ⟨hz0, hR0⟩
    apply hzr
    constructor
    · rcases div_eq_zero_iff.mp hz0 with h | h
      · exact h
      · exact absurd h hk1.ne'
    · rcases div_eq_zero_iff.mp hR0 with h | h
      · exact h
      · exact absurd h hk2.ne'
  unfold mainArm
  split
  · rfl
  · rename_i hguard
    exfalso
    apply hguard
    refine ⟨?_, ?_, ?_, ?_, ?_, ?_, ?_, ?_⟩
    · exact add_nonneg (sq_nonneg _) (mul_nonneg he4nn hq)
    · intro hu
      exact sub_ne_zero.mpr (ne_of_gt (lt_trans hu hv))
    · exact mul_ne_zero two_ne_zero hv.ne'
    · exact add_nonneg huv.le (sq_nonneg _)
    · have hpos : 0 < Real.sqrt (uvQ e4a p q r + (wQ e2a e4a p q r)^2)
          + wQ e2a e4a p q r := by linarith
      exact hpos.ne'
    · exact hk1.ne'
    · exact hk2.ne'
    · exact hH

/-- The quantity `zz` of the polar arm (Geocentric.cpp line 148). -/
noncomputable def zzQ (f e2m e4a p : ℝ) : ℝ :=
  Real.sqrt ((if 0 ≤ f then e4a - p else p) / e2m)

/-- The quantity `xx` of the polar arm (Geocentric.cpp line 149). -/
noncomputable def xxQ (f e4a p : ℝ) : ℝ :=
  Real.sqrt (if f < 0 then e4a - p else p)

/-- Embedding of the polar/equatorial limiting arm of `IntReverse`
(Geocentric.cpp lines 140-155), reached when `e4 * q == 0 && r <= 0`.  The
guard records the two radicands, the divisor `e2m` inside the first radicand,
the divisor `H = hypot(zz, xx)` and the divisor `e2a` of `h`. -/
noncomputable def polarArm (a f e2m e2a e4a z slam clam p : ℝ) :
    Option (ℝ × ℝ × ℝ) :=
  if e2m ≠ 0 ∧ 0 ≤ (if 0 ≤ f then e4a - p else p) / e2m
      ∧ 0 ≤ (if f < 0 then e4a - p else p)
      ∧ hypotR (zzQ f e2m e4a p) (xxQ f e4a p) ≠ 0
      ∧ e2a ≠ 0
  then some (latLonOf
      (if z < 0 then -(zzQ f e2m e4a p / hypotR (zzQ f e2m e4a p) (xxQ f e4a p))
       else zzQ f e2m e4a p / hypotR (zzQ f e2m e4a p) (xxQ f e4a p))
      (xxQ f e4a p / hypotR (zzQ f e2m e4a p) (xxQ f e4a p))
      slam clam
      (-(a * (if 0 ≤ f then e2m else 1))
        * hypotR (zzQ f e2m e4a p) (xxQ f e4a p) / e2a))
  else none

/-- The polar arm always produces a value: on it `0 <= p <= e4` so both
radicands are nonnegative, and `zz` and `xx` cannot both vanish since
`e4 != 0`, so `H > 0`. -/
theorem polarArm_isSome (a f e2m e2a e4a z slam clam p : ℝ)
    (he2m : 0 < e2m) (he2a : 0 < e2a) (hp : 0 ≤ p) (hpe : p ≤ e4a)
    (he4ne : e4a ≠ 0) :
    (polarArm a f e2m e2a e4a z slam clam p).isSome := by
  have hn1 : 0 ≤ (if 0 ≤ f then e4a - p else p) := by
    split
    · linarith
    · exact hp
  have hn2 : 0 ≤ (if f < 0 then e4a - p else p) := by
    split
    · linarith
    · exact hp
  have hH : hypotR (zzQ f e2m e4a p) (xxQ f e4a p) ≠ 0 := by
    intro h0
    obtain ⟨hzz, hxx⟩ := (hypotR_eq_zero_iff _ _).mp h0
    simp only [zzQ] at hzz
    simp only [xxQ] at hxx
    have hz1 : (if 0 ≤ f then e4a - p else p) / e2m ≤ 0 :=
      Real.sqrt_eq_zero'.mp hzz
    have hz2 : (if 0 ≤ f then e4a - p else p) ≤ 0 := by
      have h3 := mul_le_mul_of_nonneg_right hz1 he2m.le
      rw [zero_mul, div_mul_cancel₀ _ he2m.ne'] at h3
      exact h3
    have hx2 : (if f < 0 then e4a - p else p) ≤ 0 := Real.sqrt_eq_zero'.mp hxx
    by_cases hf0 : 0 ≤ f
    · rw [if_pos hf0] at hz2
      rw [if_neg (not_lt.mpr hf0)] at hx2
      apply he4ne
      linarith
    · rw [if_neg hf0] at hz2
      rw [if_pos (lt_of_not_le hf0)] at hx2
      apply he4ne
      linarith
  have hg : e2m ≠ 0 ∧ 0 ≤ (if 0 ≤ f then e4a - p else p) / e2m
      ∧ 0 ≤ (if f < 0 then e4a - p else p)
      ∧ hypotR (zzQ f e2m e4a p) (xxQ f e4a p) ≠ 0
      ∧ e2a ≠ 0 := ⟨he2m.ne', div_nonneg hn1 he2m.le, hn2, hH, he2a.ne'⟩
  unfold polarArm
  rw [if_pos hg]
  rfl

/-- Embedding of the far-away arm of `IntReverse` (Geocentric.cpp lines
68-80), reached when `h > maxrad`: the earth is treated as a point, with the
coordinates halved against overflow.  The guarded divisions by `R` are
explicit branches in the code; the guard records the remaining divisor
`H = hypot(z/2, R)`. -/
noncomputable def farArm (x y z h0 : ℝ) : Option (ℝ × ℝ × ℝ) :=
  let R := hypotR (x/2) (y/2)
  let slam := if R = 0 then 0 else (y/2) / R
  let clam := if R = 0 then 1 else (x/2) / R
  if hypotR (z/2) R ≠ 0
  then some (latLonOf ((z/2) / hypotR (z/2) R) (R / hypotR (z/2) R) slam clam h0)
  else none

/-- The far-away arm produces a value whenever the input point is not the
origin (which it cannot be, since `h > maxrad > 0` put us on this arm). -/
theorem farArm_isSome (x y z h0 : ℝ) (hxyz : ¬ (x = 0 ∧ y = 0 ∧ z = 0)) :
    (farArm x y z h0).isSome := by
  simp only [farArm]
  split
  · rfl
  · rename_i hguard
    rw [not_not] at hguard
    obtain ⟨hz2, hR⟩ := (hypotR_eq_zero_iff _ _).mp hguard
    obtain ⟨hx2, hy2⟩ := (hypotR_eq_zero_iff _ _).mp hR
    exfalso
    apply hxyz
    refine ⟨?_, ?_, ?_⟩
    · rcases div_eq_zero_iff.mp hx2 with h | h
      · exact h
      · norm_num at h
    · rcases div_eq_zero_iff.mp hy2 with h | h
      · exact h
      · norm_num at h
    · rcases div_eq_zero_iff.mp hz2 with h | h
      · exact h
      · norm_num at h

/-- Embedding of the spherical arm of `IntReverse` (Geocentric.cpp lines
81-88), reached when `e4 == 0`: the origin is sent to the north pole by the
`h == 0 ? 1 : z` substitution.  The guard records the divisor
`H = hypot(zz, R)`. -/
noncomputable def sphArm (a z R h0 slam clam : ℝ) : Option (ℝ × ℝ × ℝ) :=
  let zz := if h0 = 0 then 1 else z
  if hypotR zz R ≠ 0
  then some (latLonOf (zz / hypotR zz R) (R / hypotR zz R) slam clam (h0 - a))
  else none

/-- The spherical arm produces a value: with `h = 0` the substituted `zz = 1`
makes `H >= 1`, and otherwise `(z, R)` is not the origin so `H > 0`. -/
theorem sphArm_isSome (a z R h0 slam clam : ℝ)
    (hcond : h0 ≠ 0 → ¬ (z = 0 ∧ R = 0)) :
    (sphArm a z R h0 slam clam).isSome := by
  simp only [sphArm]
  by_cases hh : h0 = 0
  · rw [if_pos hh]
    have hH1 : hypotR 1 R ≠ 0 := by
      intro h0x
      obtain ⟨h1, h2⟩ := (hypotR_eq_zero_iff _ _).mp h0x
      norm_num at h1
    rw [if_pos hH1]
    rfl
  · rw [if_neg hh]
    have hHz : hypotR z R ≠ 0 := by
      intro h0x
      exact hcond hh ((hypotR_eq_zero_iff _ _).mp h0x)
    rw [if_pos hHz]
    rfl

/-- Embedding of `Geocentric::IntReverse` (Geocentric.cpp lines 59-162).
The member quantities `_e2, _e2m, _e2a, _e4a, _maxrad` are recomputed from
`(a, f)` exactly as the constructor caches them; the guarded `slam`/`clam`
divisions mirror the `R ? y/R : 0` ternaries of lines 64-65; the `a = 0`
test records the divisions by `_a` in `p` and `q` (the constructor
guarantees `a > 0`). -/
noncomputable def intReverse (a f x y z : ℝ) : Option (ℝ × ℝ × ℝ) :=
  let e2 := f * (2 - f)
  let e2m := (1 - f)^2
  let e2a := |e2|
  let e4a := e2^2
  let R := hypotR x y
  let slam := if R = 0 then 0 else y / R
  let clam := if R = 0 then 1 else x / R
  let h := hypotR R z
  if h > 2 * a / epsR then farArm x y z h
  else if e4a = 0 then sphArm a z R h slam clam
  else if a = 0 then none
  else
    let p0 := (R / a)^2
    let q0 := e2m * (z / a)^2
    let p := if f < 0 then q0 else p0
    let q := if f < 0 then p0 else q0
    let r := (p + q - e4a) / 6
    if ¬ (e4a * q = 0 ∧ r ≤ 0) then mainArm f e2 e2m e2a e4a R z slam clam p q r
    else polarArm a f e2m e2a e4a z slam clam p

/-- Claim C3: on any valid ellipsoid (`a > 0`, `f < 1`, as the constructor
enforces) and for all real inputs, neither `IntForward` nor `IntReverse`
ever divides by zero or takes the square root of a negative number: every
floating-point edge case is neutralized by the guarded formulas (the `R ?`
branches, the `max(0, ...)` clamp of `w`, the rearranged `k`, the limiting
polar arm), so no NaN or infinity is produced for in-domain inputs. -/
theorem geocentric_no_nan (a f : ℝ) (ha : 0 < a) (hf : f < 1) :
    (∀ x y z, (intReverse a f x y z).isSome)
      ∧ (∀ lat lon h, (intForward a f lat lon h).isSome) := by
  constructor
  · intro x y z
    simp only [intReverse]
    split
    · rename_i hfar
      apply farArm_isSome
      rintro ⟨hx, hy, hz⟩
      subst hx
      subst hy
      subst hz
      have hz0 : hypotR 0 0 = 0 := (hypotR_eq_zero_iff 0 0).mpr ⟨rfl, rfl⟩
      have h00 : hypotR (hypotR 0 0) 0 = 0 := by
        rw [hz0]
        exact hz0
      rw [h00] at hfar
      have hpos : 0 < 2 * a / epsR :=
        div_pos (by linarith) (by unfold epsR; positivity)
      linarith
    · split
      · rename_i hfar hsph
        apply sphArm_isSome
        intro hne
        rintro ⟨hz, hR⟩
        apply hne
        rw [hR, hz]
        exact (hypotR_eq_zero_iff 0 0).mpr ⟨rfl, rfl⟩
      · split
        · rename_i hfar hsph ha0
          exact absurd ha0 ha.ne'
        · rename_i hfar hsph ha0
          have he2ne : f * (2 - f) ≠ 0 := by
            intro h0
            apply hsph
            rw [h0]
            ring
          set p1 := if f < 0 then (1-f)^2 * (z/a)^2 else (hypotR x y / a)^2
            with hp1
          set q1 := if f < 0 then (hypotR x y / a)^2 else (1-f)^2 * (z/a)^2
            with hq1
          have hqnn : (0:ℝ) ≤ q1 := by
            rw [hq1]
            split
            · positivity
            · positivity
          have hpnn : (0:ℝ) ≤ p1 := by
            rw [hp1]
            split
            · positivity
            · positivity
          split
          · rename_i harm
            have hzrx : ¬ (z = 0 ∧ hypotR x y = 0) := by
              rintro ⟨hz, hR⟩
              apply harm
              have hq1z : q1 = 0 := by
                rw [hq1, hz, hR]
                split
                · simp
                · simp
              have hp1z : p1 = 0 := by
                rw [hp1, hz, hR]
                split
                · simp
                · simp
              constructor
              · rw [hq1z, mul_zero]
              · rw [hp1z, hq1z]
                linarith [sq_nonneg (f * (2 - f))]
            exact mainArm_isSome _ _ _ _ _ _ _ _ _ _ _ _
              hf rfl he2ne rfl hqnn harm hzrx
          · rename_i hpolar
            rw [not_not] at hpolar
            obtain ⟨hq0c, hr0⟩ := hpolar
            apply polarArm_isSome
            · exact pow_pos (by linarith) 2
            · exact abs_pos.mpr he2ne
            · exact hpnn
            · linarith [hqnn, hr0]
            · exact pow_ne_zero 2 he2ne
  · intro lat lon h
    simp only [intForward]
    split
    · rfl
    · rename_i hguard
      exfalso
      apply hguard
      have h1f : 0 < (1 - f)^2 := pow_pos (by linarith) 2
      have hs1 : Real.sin (lat * degreeR) ^ 2 ≤ 1 := Real.sin_sq_le_one _
      have hs0 : 0 ≤ Real.sin (lat * degreeR) ^ 2 := sq_nonneg _
      have hpos : 0 < 1 - f * (2 - f) * Real.sin (lat * degreeR) ^ 2 := by
        rcases le_or_lt 0 (f * (2 - f)) with he2 | he2
        · nlinarith [mul_nonneg he2
            (by linarith : (0:ℝ) ≤ 1 - Real.sin (lat * degreeR) ^ 2)]
        · nlinarith [mul_nonneg hs0 (by linarith : (0:ℝ) ≤ -(f * (2 - f)))]
      refine ⟨hpos.le, ?_⟩
      rw [Real.sqrt_ne_zero']
      exact hpos

/-- Claim C3, witness: the guarantee applied to the WGS84-like shape
`(a, f) = (6378137, 1/298)` at the concrete points `(1, 2, 3)` and
`(30, 45, 100)`. -/
theorem geocentric_no_nan_witness :
    (intReverse 6378137 (1/298) 1 2 3).isSome
      ∧ (intForward 6378137 (1/298) 30 45 100).isSome := by
  have h := geocentric_no_nan 6378137 (1/298) (by norm_num) (by norm_num)
  exact ⟨h.1 1 2 3, h.2 30 45 100⟩

/-- Claim C7, counterexample: the claim says every real longitude input is
normalized into `[-180, 180)`, but the single conditional shift of
Geocentric.cpp line 42 maps 540 to 180, which is not below 180. -/
theorem normLon_claim_counterexample :
    normLon 540 = 180 ∧ ¬ ((180 : ℚ) < 180) := by
  constructor
  · unfold normLon
    norm_num
  · exact lt_irrefl 180

/-- Claim C7, amended: the single conditional shift of Geocentric.cpp line 42
normalizes longitudes into `[-180, 180)` exactly for inputs in `[-540, 540)`
(one wrap), and every longitude produced as output by `IntReverse`
(Geocentric.cpp line 159, `lon = -atan2(-slam, clam)/degree`) lies in
`[-180, 180)`. -/
theorem lon_in_out_range (lon : ℚ) (hlo : -540 ≤ lon) (hhi : lon < 540) :
    (-180 ≤ normLon lon ∧ normLon lon < 180)
      ∧ ∀ sphi cphi slam clam h : ℝ,
          -180 ≤ (latLonOf sphi cphi slam clam h).2.1
            ∧ (latLonOf sphi cphi slam clam h).2.1 < 180 := by
  constructor
  · unfold normLon
    split_ifs with h1 h2
    · constructor <;> linarith
    · constructor <;> linarith
    · constructor <;> linarith
  · intro sphi cphi slam clam h
    simp only [latLonOf, degreeR]
    obtain ⟨harg1, harg2⟩ := atan2R_mem (-slam) clam
    have hc : 0 < Real.pi / 180 := by positivity
    constructor
    · have e1 : (-Real.pi) / (Real.pi / 180) = -180 := by
        rw [div_eq_iff hc.ne']
        ring
      calc (-180 : ℝ) = (-Real.pi) / (Real.pi / 180) := e1.symm
        _ ≤ (-(atan2R (-slam) clam)) / (Real.pi / 180) := by
            rw [div_le_div_iff_of_pos_right hc]
            linarith
    · have e2 : Real.pi / (Real.pi / 180) = 180 := by
        rw [div_eq_iff hc.ne']
        ring
      calc (-(atan2R (-slam) clam)) / (Real.pi / 180)
          < Real.pi / (Real.pi / 180) := by
            rw [div_lt_div_iff_of_pos_right hc]
            linarith
        _ = 180 := e2

/-- Claim C7, witness for the amended theorem: the in-window input 250 is
normalized to -110, inside `[-180, 180)`. -/
theorem lon_in_out_range_witness :
    -180 ≤ normLon 250 ∧ normLon 250 < 180 :=
  (lon_in_out_range 250 (by norm_num) (by norm_num)).1

/-! ## Geodesic direct solver and geodesic line (modelled)

Geodesic.cpp / Geodesic.hpp are not under src/; only their CLI caller Geod.cpp
is (lines 159-213: mode (1) calls `geod.Direct`, mode (2) builds
`l = geod.Line(lat1, lon1, azi1)` once and calls `l.Position(s12)` per input
line).  The algorithm shared by the two paths is modelled from spec sections
4.2 and 4.4, with the three flattening-dependent series of section 4.1 kept
abstract as parameters. -/

/-- Modelled from the spec: the three series evaluators precomputed by the
ellipsoid constructor (spec section 4.1): (a) arc length from auxiliary
angle, (b) auxiliary angle from arc length (the series inverse of (a)), and
(c) the longitude-difference correction, a function of the great circle
(through sin of the azimuth at the node) and the auxiliary angle. -/
structure SeriesPack where
  arcFromAngle : ℝ → ℝ
  angleFromArc : ℝ → ℝ
  lonCorrection : ℝ → ℝ → ℝ

/-- Modelled from the spec: the per-line snapshot of a GeodesicLine (spec
section 3): base longitude, sine/cosine of the reduced latitude and of the
azimuth, the great-circle node quantities, and the auxiliary-sphere
arc-length offset `s1`, all computed once at construction. -/
structure GeodLine where
  lon1 : ℝ
  sbet1 : ℝ
  cbet1 : ℝ
  salp1 : ℝ
  calp1 : ℝ
  salp0 : ℝ
  calp0 : ℝ
  sig1 : ℝ
  om1 : ℝ
  s1 : ℝ

/-- Modelled from the spec: `Geodesic::Line` / the GeodesicLine constructor
(spec sections 3 and 4.4).  Reduced latitude via
`tan(reduced) = (1-f) tan(geodetic)`, Clairaut's relation for the azimuth at
the equator crossing, and the closed-form spherical-trigonometry offset of
the start point from that crossing (spec section 4.2, no iteration). -/
noncomputable def lineSetup (S : SeriesPack) (f lat1 lon1 azi1 : ℝ) : GeodLine :=
  let bet1 := Real.arctan ((1 - f) * Real.tan (lat1 * degreeR))
  let alp1 := azi1 * degreeR
  let salp0 := Real.sin alp1 * Real.cos bet1
  let calp0 := Real.sqrt (1 - (Real.sin alp1 * Real.cos bet1)^2)
  let sig1 := atan2R (Real.sin bet1) (Real.cos bet1 * Real.cos alp1)
  let om1 := atan2R (salp0 * Real.sin sig1) (Real.cos sig1)
  GeodLine.mk lon1 (Real.sin bet1) (Real.cos bet1) (Real.sin alp1)
    (Real.cos alp1) salp0 calp0 sig1 om1 (S.arcFromAngle sig1)

/-- Modelled from the spec: `GeodesicLine::Position` (spec section 4.4):
add the traversed arc length to the cached offset, recover the end
auxiliary angle through series (b), convert back through reduced latitude
and azimuth, and apply the longitude-difference correction (c); a pure
function of the snapshot and `s12`. -/
noncomputable def linePosition (S : SeriesPack) (f : ℝ) (L : GeodLine)
    (s12 : ℝ) : ℝ × ℝ × ℝ :=
  let sig2 := S.angleFromArc (L.s1 + s12)
  let bet2 := Real.arcsin (L.calp0 * Real.sin sig2)
  let alp2 := atan2R L.salp0 (L.calp0 * Real.cos sig2)
  let om2 := atan2R (L.salp0 * Real.sin sig2) (Real.cos sig2)
  let lam12 := (om2 - L.om1)
    + (S.lonCorrection L.salp0 sig2 - S.lonCorrection L.salp0 L.sig1)
  (Real.arctan (Real.tan bet2 / (1 - f)) / degreeR,
   L.lon1 + lam12 / degreeR,
   alp2 / degreeR)

/-- Modelled from the spec: `Geodesic::Direct` (spec section 4.2), written
out as one closed-form pipeline in the order of the spec's prose: reduce the
latitude, combine with the azimuth to get the auxiliary-sphere position and
arc-length offset, add the traversed arc length, evaluate the
angle-from-arc-length series, convert back, and apply the
longitude-difference series. -/
noncomputable def directSolve (S : SeriesPack) (f lat1 lon1 azi1 s12 : ℝ) :
    ℝ × ℝ × ℝ :=
  let bet1 := Real.arctan ((1 - f) * Real.tan (lat1 * degreeR))
  let alp1 := azi1 * degreeR
  let salp0 := Real.sin alp1 * Real.cos bet1
  let calp0 := Real.sqrt (1 - (Real.sin alp1 * Real.cos bet1)^2)
  let sig1 := atan2R (Real.sin bet1) (Real.cos bet1 * Real.cos alp1)
  let om1 := atan2R (salp0 * Real.sin sig1) (Real.cos sig1)
  let s1 := S.arcFromAngle sig1
  let sig2 := S.angleFromArc (s1 + s12)
  let bet2 := Real.arcsin (calp0 * Real.sin sig2)
  let alp2 := atan2R salp0 (calp0 * Real.cos sig2)
  let om2 := atan2R (salp0 * Real.sin sig2) (Real.cos sig2)
  let lam12 := (om2 - om1)
    + (S.lonCorrection salp0 sig2 - S.lonCorrection salp0 sig1)
  (Real.arctan (Real.tan bet2 / (1 - f)) / degreeR,
   lon1 + lam12 / degreeR,
   alp2 / degreeR)

/-- Claim C5: for every base point, azimuth and signed arc length, and any
choice of the series evaluators, stepping along the geodesic line built from
the base point and azimuth returns exactly the end latitude, longitude and
azimuth that the direct solver computes from the same inputs - the cached
per-line snapshot loses nothing. -/
theorem direct_eq_linePosition (S : SeriesPack) (f lat1 lon1 azi1 s12 : ℝ) :
    directSolve S f lat1 lon1 azi1 s12
      = linePosition S f (lineSetup S f lat1 lon1 azi1) s12 := rfl
